import Mathlib

/-!
Shallow embedding of `llmFunctionDecorator/__init__.py`: the `FunctionRegistry`
class, the `ToolWrapper` class and the `tool` decorator, together with proofs of
the specification claims about them.

Modelling conventions:
* Python runtime values passed as tool arguments are the inductive `Val`.
* A Python callable is a `PyFunc`: a name, an ordered formal-parameter list
  (each parameter possibly carrying a default), and a body mapping a complete
  name-to-value assignment to either a result or a raised exception
  (`Except PyError Val`).
* `inspect.signature(...).bind(**kwargs)` followed by `apply_defaults()` is
  `bindArgs` / `applyDefaults`.
* Python `dict`s keep insertion order, and assigning to an existing key keeps
  its position; the registry is an association list with those semantics.
* The two Python `set`s built in `ToolWrapper.__init__` (`param_keys`,
  `description_keys`) are modelled as first-occurrence-ordered deduplicated
  lists (keyword-argument keys are unique in Python, so deduplication is the
  identity on real inputs).
* Raised exceptions are the `.error` branch of `Except PyError`.
* The JSON-shaped dictionaries produced by `to_dict` and `tool_choice` are the
  inductive `JVal`, keeping literal field names and field order.
-/

/-- A Python runtime value, as far as tool arguments and results need. -/
inductive Val where
  | int (n : Int)
  | float (q : ℚ)
  | str (s : String)
  | bool (b : Bool)
  | list (vs : List Val)
  | none
deriving Repr, BEq

/-- A Python exception of the two kinds the module raises. -/
inductive PyError where
  | valueError (msg : String)
  | typeError (msg : String)
deriving Repr, BEq, DecidableEq

/-- The Python type tags that can be passed as type hints to `ToolWrapper`:
the keys of `type_mapping` in `_add_parameter`, plus a tag for any other
(unrecognized) object used as a type hint. -/
inductive PyTypeTag where
  | pInt | pFloat | pStr | pBool | pList | pTuple | pDict | pNoneT | pOther
deriving Repr, BEq, DecidableEq

/-- Model of `type_mapping.get(param_info, 'string')` from `_add_parameter`. -/
def PyTypeTag.schemaType : PyTypeTag → String
  | .pInt => "integer"
  | .pFloat => "number"
  | .pStr => "string"
  | .pBool => "boolean"
  | .pList => "array"
  | .pTuple => "array"
  | .pDict => "object"
  | .pNoneT => "null"
  | .pOther => "string"

/-- A value passed as a keyword argument to `ToolWrapper.__init__`: a type
tag, a Python list (treated as an enumeration), or a string (used for
`_description` keys; as a type hint it is an unrecognized tag mapping to
"string"). -/
inductive KwVal where
  | type (t : PyTypeTag)
  | enum (vs : List Val)
  | string (s : String)
deriving Repr, BEq

/-- Python truthiness of a `KwVal`, needed for `to_dict`'s
`if param_info.get('description')` test. A type object is truthy, `None` is
falsy, a list or string is truthy when non-empty. -/
def KwVal.truthy : KwVal → Bool
  | .type .pNoneT => false
  | .type _ => true
  | .enum vs => !vs.isEmpty
  | .string s => !s.isEmpty

/-- One formal parameter of a Python function: its name and its declared
default value, when it has one. -/
structure Param where
  name : String
  default : Option Val
deriving Repr

/-- A Python callable: `name` is `__name__`, `params` the ordered formal
parameter list from `inspect.signature`, and `body` the function itself,
taking the complete bound argument assignment (in parameter order) and
either returning a value or raising. -/
structure PyFunc where
  name : String
  params : List Param
  body : List (String × Val) → Except PyError Val

/-- An arbitrary Python object handed to `tool_choice` or
`ToolWrapper.__init__` as a function reference: either a callable or a
non-callable value. -/
inductive PyObj where
  | func (f : PyFunc)
  | val (v : Val)

/-- Python `callable(...)`. -/
def PyObj.isCallable : PyObj → Bool
  | .func _ => true
  | .val _ => false

/-- A JSON-shaped Python dictionary value as produced by `to_dict` and
`tool_choice`: field names and field order are kept literally. -/
inductive JVal where
  | s (x : String)
  | pv (v : Val)
  | kwv (k : KwVal)
  | list (xs : List JVal)
  | dict (fields : List (String × JVal))

/-- An entry of `ToolWrapper.parameters`: the dictionary built by
`_add_parameter` (name, schema type, optional enum) with the description
attached afterwards by `__init__`. -/
structure ParamEntry where
  name : String
  type : String
  enum : Option (List Val)
  description : Option KwVal

/-- The `ToolWrapper` instance state after a successful `__init__`. -/
structure ToolWrapper where
  name : String
  function_ref : PyFunc
  enabled : Bool
  purpose : String
  parameters : List ParamEntry
  required : List String

/-! ### String helpers (substring test, used to state "message mentions X") -/

/-- Predicate `strPre pat s` holds when `pat` is a prefix of `s` (on character lists). -/
def strPre : List Char → List Char → Bool
  | [], _ => true
  | _ :: _, [] => false
  | a :: as, b :: bs => a == b && strPre as bs

/-- Predicate `strSubList pat s`: `pat` occurs as a contiguous sublist of `s`. -/
def strSubList (pat : List Char) : List Char → Bool
  | [] => pat.isEmpty
  | c :: cs => strPre pat (c :: cs) || strSubList pat cs

/-- Predicate `containsSub s pat`: the string `pat` occurs inside the string `s`. -/
def containsSub (s pat : String) : Bool :=
  strSubList pat.data s.data

/-! ### Keyword-argument partitioning (`ToolWrapper.__init__`, lines 161-164) -/

/-- Python `str.endswith(suffix)`: character-based suffix test (Python
strings are sequences of code points, not UTF-8 bytes). -/
def pyEndsWith (s suffix : String) : Bool :=
  strPre suffix.data.reverse s.data.reverse

/-- Fuel-driven worker for `pyReplace`; the fuel is the length of the
remaining list, which bounds the number of steps. -/
def replaceAllAux (old new : List Char) : Nat → List Char → List Char
  | 0, l => l
  | _ + 1, [] => []
  | fuel + 1, c :: cs =>
      if strPre old (c :: cs) && !old.isEmpty then
        new ++ replaceAllAux old new fuel (List.drop (old.length - 1) cs)
      else
        c :: replaceAllAux old new fuel cs

/-- Python `str.replace(old, new)` for a non-empty `old`: replace every
non-overlapping occurrence, left to right. (The source only ever calls
`replace` with the non-empty pattern `'_description'`.) -/
def pyReplace (s old new : String) : String :=
  String.mk (replaceAllAux old.data new.data s.data.length s.data)

/-- Python `str.strip()` with no argument: remove leading and trailing
whitespace characters. -/
def pyStrip (s : String) : String :=
  String.mk (((s.data.dropWhile (·.isWhitespace)).reverse.dropWhile
    (·.isWhitespace)).reverse)

/-- First-occurrence-ordered deduplication, modelling Python set formation
from an insertion-ordered iteration. -/
def dedupFirst : List String → List String
  | [] => []
  | k :: ks => k :: (dedupFirst ks).filter (· ≠ k)

/-- Model of `param_keys = {key for key in kwargs if not key.endswith('_description')}`. -/
def typeHintKeys (kwargs : List (String × KwVal)) : List String :=
  dedupFirst ((kwargs.filter (fun kv => !pyEndsWith kv.1 "_description")).map (·.1))

/-- Model of `description_keys = {key.replace('_description', '') for key in kwargs
if key.endswith('_description')}`. -/
def descHintKeys (kwargs : List (String × KwVal)) : List String :=
  dedupFirst ((kwargs.filter (fun kv => pyEndsWith kv.1 "_description")).map
    (fun kv => pyReplace kv.1 "_description" ""))

/-! ### `ToolWrapper._add_parameter` and `__init__` validation loops -/

/-- Model of `_add_parameter(name, param_info)` (lines 196-235): an enumeration hint
gets type "array" and its (non-empty) value list as enum; anything else goes
through `type_mapping` with default "string"; an empty enum list raises. -/
def addParameter (name : String) (info : KwVal) : Except PyError ParamEntry :=
  match info with
  | .enum vs =>
      if vs.isEmpty then
        .error (.valueError
          s!"Enum for parameter \x27{name}\x27 must have at least one value.")
      else
        .ok { name := name, type := "array", enum := some vs, description := none }
  | .type t =>
      .ok { name := name, type := t.schemaType, enum := none, description := none }
  | .string _ =>
      .ok { name := name, type := "string", enum := none, description := none }

/-- Lines 167-170: every type-hint key must be a formal parameter of the
wrapped function. -/
def checkParamsExist (fname : String) (sig : List String) :
    List String → Except PyError Unit
  | [] => .ok ()
  | k :: ks =>
      if sig.contains k then checkParamsExist fname sig ks
      else .error (.valueError
        s!"Parameter \x27{k}\x27 doesn\x27t exist in the function \x27{fname}\x27")

/-- Lines 173-175: every description key must have a matching type-hint key. -/
def checkDescTargets (paramKeys : List String) :
    List String → Except PyError Unit
  | [] => .ok ()
  | d :: ds =>
      if paramKeys.contains d then checkDescTargets paramKeys ds
      else .error (.valueError
        s!"Description provided for \x27{d}\x27, but \x27{d}\x27 parameter is not present")

/-- Lines 178-182: every type-hint parameter must have a description, and is
then added through `_add_parameter` (which may raise on an empty enum). -/
def buildParams (kwargs : List (String × KwVal)) (descKeys : List String) :
    List String → Except PyError (List ParamEntry)
  | [] => .ok []
  | k :: ks =>
      if descKeys.contains k then
        match kwargs.find? (·.1 == k) with
        | some kv =>
            match addParameter k kv.2 with
            | .error e => .error e
            | .ok p =>
                match buildParams kwargs descKeys ks with
                | .error e => .error e
                | .ok ps => .ok (p :: ps)
        | Option.none => .ok []
      else .error (.valueError s!"Description for \x27{k}\x27 not provided")

/-- Lines 185-189: walk the keyword arguments in order and attach each
`_description` value to the already-built parameter entry, when present. -/
def attachDescriptions (params : List ParamEntry)
    (kwargs : List (String × KwVal)) : List ParamEntry :=
  kwargs.foldl (fun ps kv =>
    if pyEndsWith kv.1 "_description" then
      let tn := pyReplace kv.1 "_description" ""
      ps.map (fun p =>
        if p.name == tn then { p with description := some kv.2 } else p)
    else ps) params

/-- Lines 192-194: every required name must be a built parameter. -/
def checkRequired (paramNames : List String) :
    List String → Except PyError Unit
  | [] => .ok ()
  | r :: rs =>
      if paramNames.contains r then checkRequired paramNames rs
      else .error (.valueError
        s!"Required parameter \x27{r}\x27 is not defined among parameters")

/-- Model of `ToolWrapper.__init__` (lines 136-194). `function_ref` is an optional
arbitrary object, as in the source; `required = Option.none` models the
default `required=None` (replaced by `[]`). -/
def ToolWrapper.init (purpose : String) (required : Option (List String))
    (function_ref : Option PyObj) (enabled : Bool)
    (kwargs : List (String × KwVal)) : Except PyError ToolWrapper :=
  match function_ref with
  | Option.none => .error (.valueError "\x27function_ref\x27 must be provided")
  | some (.val _) => .error (.typeError "\x27function_ref\x27 must be callable")
  | some (.func f) =>
      match checkParamsExist f.name (f.params.map (·.name)) (typeHintKeys kwargs) with
      | .error e => .error e
      | .ok _ =>
      match checkDescTargets (typeHintKeys kwargs) (descHintKeys kwargs) with
      | .error e => .error e
      | .ok _ =>
      match buildParams kwargs (descHintKeys kwargs) (typeHintKeys kwargs) with
      | .error e => .error e
      | .ok ps0 =>
      match checkRequired ((attachDescriptions ps0 kwargs).map (·.name))
          (required.getD []) with
      | .error e => .error e
      | .ok _ =>
          .ok { name := f.name, function_ref := f, enabled := enabled,
                purpose := pyStrip purpose,
                parameters := attachDescriptions ps0 kwargs,
                required := required.getD [] }

/-! ### `ToolWrapper.to_dict` (lines 237-269) -/

/-- The fields of the `{'type': ..., 'enum'?: ..., 'description'?: ...}`
dictionary built for one parameter: `enum` and `description` are added only
when truthy. -/
def propFields (p : ParamEntry) : List (String × JVal) :=
  [("type", JVal.s p.type)]
    ++ (match p.enum with
        | some vs => if vs.isEmpty then [] else [("enum", JVal.list (vs.map .pv))]
        | Option.none => [])
    ++ (match p.description with
        | some d => if d.truthy then [("description", JVal.kwv d)] else []
        | Option.none => [])

/-- The per-parameter dictionary of `to_dict`. -/
def propDict (p : ParamEntry) : JVal :=
  .dict (propFields p)

/-- The `properties` dictionary of `to_dict`, in `self.parameters` order. -/
def ToolWrapper.propsOf (t : ToolWrapper) : List (String × JVal) :=
  t.parameters.map (fun p => (p.name, propDict p))

/-- The `required_fields` list of `to_dict`: parameter names, in
`self.parameters` iteration order, that occur in `self.required`. -/
def ToolWrapper.requiredFields (t : ToolWrapper) : List String :=
  (t.parameters.map (·.name)).filter (fun n => t.required.contains n)

/-- Model of `to_dict()` (lines 237-269). -/
def ToolWrapper.to_dict (t : ToolWrapper) : JVal :=
  .dict [("type", .s "function"),
         ("function", .dict
           [("name", .s t.name),
            ("description", .s t.purpose),
            ("parameters", .dict
              [("type", .s "object"),
               ("properties", .dict t.propsOf),
               ("required", .list (t.requiredFields.map .s))])])]

/-! ### Argument binding (`inspect.Signature.bind` + `apply_defaults`) -/

/-- Model of `sig.bind(**kwargs)` for a function whose formal parameters are all
positional-or-keyword: raises TypeError when a parameter without a default
is missing from the keyword arguments (checked first, in parameter order),
or when a keyword argument does not name any formal parameter; otherwise
returns the bound arguments. -/
def bindArgs (params : List Param) (kwargs : List (String × Val)) :
    Except String (List (String × Val)) :=
  match params.find? (fun p =>
      p.default.isNone && ((kwargs.find? (·.1 == p.name)).isNone)) with
  | some p => .error s!"missing a required argument: \x27{p.name}\x27"
  | Option.none =>
      match kwargs.find? (fun kv => !params.any (·.name == kv.1)) with
      | some kv => .error s!"got an unexpected keyword argument \x27{kv.1}\x27"
      | Option.none =>
          .ok (params.filterMap (fun p =>
            (kwargs.find? (·.1 == p.name)).map (fun kv => (p.name, kv.2))))

/-- Model of `bound_args.apply_defaults()`: the complete assignment, in parameter
order — the supplied value when present, the declared default otherwise. -/
def applyDefaults (params : List Param) (bound : List (String × Val)) :
    List (String × Val) :=
  params.filterMap (fun p =>
    match bound.find? (·.1 == p.name) with
    | some kv => some (p.name, kv.2)
    | Option.none => p.default.map (fun d => (p.name, d)))

/-- Calling a Python function directly with keyword arguments: bind (raising
TypeError on failure), apply defaults, run the body. -/
def directCall (f : PyFunc) (kwargs : List (String × Val)) :
    Except PyError Val :=
  match bindArgs f.params kwargs with
  | .error e => .error (.typeError e)
  | .ok bound => f.body (applyDefaults f.params bound)

/-! ### `FunctionRegistry` (lines 12-127) -/

/-- One value of the `_registry` dictionary: `{"instance": ...,
"enabled": ...}` where `enabled` is the snapshot taken at registration. -/
structure RegEntry where
  inst : ToolWrapper
  enabled : Bool

/-- The `_registry` dictionary: an insertion-ordered association list. -/
abbrev Registry := List (String × RegEntry)

/-- Model of `register_function(name, tool_instance)` (lines 20-30): insert or
overwrite; Python dict assignment keeps an existing key's position. -/
def register_function (reg : Registry) (name : String) (t : ToolWrapper) :
    Registry :=
  if reg.any (·.1 == name) then
    reg.map (fun e => if e.1 == name then (name, RegEntry.mk t t.enabled) else e)
  else
    reg ++ [(name, RegEntry.mk t t.enabled)]

/-- Model of `get_registry()` (lines 32-42): name-to-instance mapping of the enabled
entries, in registration order. -/
def get_registry (reg : Registry) : List (String × ToolWrapper) :=
  (reg.filter (fun e => e.2.enabled)).map (fun e => (e.1, e.2.inst))

/-- Model of `registry_status()` (lines 44-54). -/
def registry_status (reg : Registry) : String :=
  String.intercalate "\n" (reg.map (fun e : String × RegEntry =>
    "Function: " ++ e.1 ++ ", Enabled: " ++
      (if e.2.enabled then "True" else "False")))

/-- Model of `tools()` (lines 56-67): the `to_dict` projections of the enabled
entries, or `None` when there are none. -/
def tools (reg : Registry) : Option (List JVal) :=
  let ts := (get_registry reg).map (fun e => e.2.to_dict)
  if ts.isEmpty then Option.none else some ts

/-- The three possible results of `tool_choice`. -/
inductive ToolChoiceRes where
  | auto
  | unset
  | choice (j : JVal)

/-- Model of `tool_choice(function_ref=None)` (lines 69-100). -/
def tool_choice (reg : Registry) (function_ref : Option PyObj) :
    Except PyError ToolChoiceRes :=
  match function_ref with
  | Option.none =>
      if reg.any (fun e => e.2.enabled) then .ok .auto else .ok .unset
  | some r =>
      if !r.isCallable then
        .error (.valueError
          "The provided function_ref is not callable. Please provide a valid function.")
      else
        match r with
        | .val _ => .error (.valueError
            "The provided function_ref is not callable. Please provide a valid function.")
        | .func f =>
            match reg.find? (·.1 == f.name) with
            | some e =>
                if e.2.enabled then
                  .ok (.choice (.dict [("type", .s "function"),
                    ("function", .dict [("name", .s f.name)])]))
                else
                  .error (.valueError
                    s!"The function \x27{f.name}\x27 is either not registered in the FunctionRegistry or is disabled.")
            | Option.none =>
                .error (.valueError
                  s!"The function \x27{f.name}\x27 is either not registered in the FunctionRegistry or is disabled.")

/-- Model of `call_function(name, **kwargs)` (lines 102-127). A string result models
the descriptive failure messages; `.error` models an exception propagating
out of the wrapped function. -/
def call_function (reg : Registry) (name : String)
    (kwargs : List (String × Val)) : Except PyError Val :=
  match reg.find? (·.1 == name) with
  | Option.none =>
      .ok (.str s!"Function {name} is not registered and cannot be called.")
  | some e =>
      if !e.2.enabled then
        .ok (.str s!"Function {name} is currently disabled and cannot be called.")
      else
        let func := e.2.inst.function_ref
        match bindArgs func.params kwargs with
        | .error msg => .ok (.str s!"Error binding arguments for {name}: {msg}")
        | .ok bound => func.body (applyDefaults func.params bound)

/-! ### The `tool` decorator (lines 272-300) -/

/-- The `wrapper` closure returned by the decorator: `functools.wraps`
copies `__name__` and `__wrapped__` (so `inspect.signature` sees `func`'s
parameters), and calling it forwards all arguments to `func`. -/
def wrapsWrapper (f : PyFunc) : PyFunc :=
  { name := f.name, params := f.params, body := f.body }

/-- Model of `tool(purpose, required, enabled, **kwargs)` applied to a function `f`
with registry state `reg`: constructs a `ToolWrapper` (which may raise),
registers it under `f.__name__`, and returns the wrapping function together
with the new registry state. -/
def tool (purpose : String) (required : Option (List String)) (enabled : Bool)
    (kwargs : List (String × KwVal)) (f : PyFunc) (reg : Registry) :
    Except PyError (Registry × PyFunc) :=
  match ToolWrapper.init purpose required (some (.func f)) enabled kwargs with
  | .error e => .error e
  | .ok tw => .ok (register_function reg f.name tw, wrapsWrapper f)

/-! ### Example values used by the witness theorems -/

/-- Body of an example tool adding two integers. -/
def exAddBody : List (String × Val) → Except PyError Val
  | [(_, .int a), (_, .int b)] => .ok (.int (a + b))
  | _ => .error (.typeError "bad arguments")

/-- An example callable `addNumbers(a, b)`. -/
def exAdd : PyFunc :=
  { name := "addNumbers",
    params := [{ name := "a", default := Option.none },
               { name := "b", default := Option.none }],
    body := exAddBody }

/-- A `ToolWrapper` around `exAdd`, as `__init__` would build it. -/
def exAddW : ToolWrapper :=
  { name := "addNumbers", function_ref := exAdd, enabled := true,
    purpose := "Add two numbers",
    parameters :=
      [{ name := "a", type := "integer", enum := Option.none,
         description := some (.string "the first") },
       { name := "b", type := "integer", enum := Option.none,
         description := some (.string "the second") }],
    required := ["a", "b"] }

/-- A disabled wrapper around the same callable, under another name. -/
def exDisabledW : ToolWrapper :=
  { name := "dTool", function_ref := exAdd, enabled := false,
    purpose := "A disabled tool", parameters := [], required := [] }

/-- A callable that always raises. -/
def exBoom : PyFunc :=
  { name := "boom", params := [],
    body := fun _ => .error (.typeError "boom failed") }

/-- A wrapper around `exBoom`. -/
def exBoomW : ToolWrapper :=
  { name := "boom", function_ref := exBoom, enabled := true,
    purpose := "Always raises", parameters := [], required := [] }

/-- An example callable with a defaulted parameter, echoing its bound
arguments. -/
def exWeather : PyFunc :=
  { name := "currentWeather",
    params := [{ name := "location", default := Option.none },
               { name := "unit", default := some (.str "celsius") }],
    body := fun args => .ok (.list (args.map (·.2))) }

/-- A wrapper around `exWeather`. -/
def exWeatherW : ToolWrapper :=
  { name := "currentWeather", function_ref := exWeather, enabled := true,
    purpose := "Get the current weather",
    parameters :=
      [{ name := "location", type := "string", enum := Option.none,
         description := some (.string "the city") },
       { name := "unit", type := "array",
         enum := some [.str "celsius", .str "fahrenheit"],
         description := some (.string "the unit") }],
    required := ["location"] }

/-- An example registry state with a disabled, an enabled, a raising and a
defaulted tool. -/
def exReg : Registry :=
  [("dTool", ⟨exDisabledW, false⟩),
   ("addNumbers", ⟨exAddW, true⟩),
   ("boom", ⟨exBoomW, true⟩),
   ("currentWeather", ⟨exWeatherW, true⟩)]

/-- A callable named like the disabled registry entry. -/
def exDFunc : PyFunc :=
  { name := "dTool", params := [], body := fun _ => .ok .none }

/-- A callable whose name is not registered at all. -/
def exGhost : PyFunc :=
  { name := "ghost", params := [], body := fun _ => .ok .none }

/-! ### C8: snapshot semantics of registration -/

/-- The effect, on one registry entry, of assigning to the wrapped
`ToolWrapper`\x27s `enabled` attribute when the entry's key is `nm`: the
aliased `instance` sees the new attribute value, the entry's own
`"enabled"` dictionary value is a copy and is not touched. -/
def regMutate (nm : String) (b : Bool) (e : String × RegEntry) :
    String × RegEntry :=
  if e.1 == nm then
    (e.1, ⟨{ name := e.2.inst.name, function_ref := e.2.inst.function_ref,
             enabled := b, purpose := e.2.inst.purpose,
             parameters := e.2.inst.parameters,
             required := e.2.inst.required },
           e.2.enabled⟩)
  else e

/-- Mutating `wrapper.enabled` after registration, as observed through the
registry. -/
def setWrapperEnabled (reg : Registry) (nm : String) (b : Bool) : Registry :=
  reg.map (regMutate nm b)

/-- The enum-hint validity of one key: when the keyword argument for `k` is
a Python list, it is non-empty. -/
def kwEnumOk (kwargs : List (String × KwVal)) (k : String) : Bool :=
  match kwargs.find? (·.1 == k) with
  | some kv =>
      match kv.2 with
      | KwVal.enum vs => !vs.isEmpty
      | _ => true
  | Option.none => true

/-- The validation rules of `ToolWrapper.__init__` for a callable
`function_ref`: every type-hint key is a formal parameter, every
description hint targets a type-hint key, every type-hint key has a
description hint, every enum hint is non-empty, and every required name is
a type-hint key (the built parameter map's keys are exactly the type-hint
keys). -/
abbrev ValidHints (f : PyFunc) (required : List String)
    (kwargs : List (String × KwVal)) : Prop :=
  (∀ k ∈ typeHintKeys kwargs, (f.params.map (·.name)).contains k = true) ∧
  (∀ d ∈ descHintKeys kwargs, (typeHintKeys kwargs).contains d = true) ∧
  (∀ k ∈ typeHintKeys kwargs, (descHintKeys kwargs).contains k = true) ∧
  (∀ k ∈ typeHintKeys kwargs, kwEnumOk kwargs k = true) ∧
  (∀ r ∈ required, (typeHintKeys kwargs).contains r = true)


/-! ### Substring lemmas used to state that a message mentions a phrase -/

lemma strPre_append (l m : List Char) : strPre l (l ++ m) = true := by
  induction l with
  | nil => rfl
  | cons a as ih => simp [strPre, ih]

lemma strPre_extend (pat l m : List Char) (h : strPre pat l = true) :
    strPre pat (l ++ m) = true := by
  induction pat generalizing l with
  | nil => rfl
  | cons a as ih =>
    cases l with
    | nil => simp [strPre] at h
    | cons b bs =>
      simp only [strPre, Bool.and_eq_true] at h
      simp only [List.cons_append, strPre, Bool.and_eq_true]
      exact ⟨h.1, ih bs h.2⟩

lemma strSub_of_pre (pat l : List Char) (h : strPre pat l = true) :
    strSubList pat l = true := by
  cases l with
  | nil =>
    cases pat with
    | nil => rfl
    | cons a as => simp [strPre] at h
  | cons c cs =>
    rw [strSubList]
    simp [h]

lemma strSubList_nil_pat (l : List Char) : strSubList [] l = true := by
  cases l with
  | nil => rfl
  | cons c cs => rw [strSubList]; simp [strPre]

lemma strSubList_append (pat ys : List Char) (xs : List Char)
    (h : strSubList pat ys = true) : strSubList pat (xs ++ ys) = true := by
  induction xs with
  | nil => simpa using h
  | cons c cs ih =>
    rw [List.cons_append, strSubList]
    simp [ih]

lemma strSubList_extend (pat xs ys : List Char)
    (h : strSubList pat xs = true) : strSubList pat (xs ++ ys) = true := by
  induction xs with
  | nil =>
    rw [strSubList] at h
    simp only [List.isEmpty_iff] at h
    subst h
    exact strSubList_nil_pat ys
  | cons c cs ih =>
    rw [strSubList] at h
    rw [List.cons_append, strSubList]
    rcases Bool.or_eq_true_iff.mp h with h1 | h2
    · have h3 := strPre_extend pat (c :: cs) ys h1
      rw [List.cons_append] at h3
      simp [h3]
    · simp [ih h2]

/-- Occurrence in `b` gives occurrence in `a ++ b`. -/
lemma containsSub_skip (a b pat : String) (h : containsSub b pat = true) :
    containsSub (a ++ b) pat = true := by
  unfold containsSub at *
  rw [String.data_append]
  exact strSubList_append _ _ _ h

/-- Occurrence in `a` gives occurrence in `a ++ b`. -/
lemma containsSub_extend (a b pat : String) (h : containsSub a pat = true) :
    containsSub (a ++ b) pat = true := by
  unfold containsSub at *
  rw [String.data_append]
  exact strSubList_extend _ _ _ h

/-- every string ends with itself. -/
lemma containsSub_tail (a pat : String) : containsSub (a ++ pat) pat = true := by
  apply containsSub_skip
  unfold containsSub
  cases h : pat.data with
  | nil => simp [strSubList]
  | cons c cs =>
    rw [strSubList]
    have h2 := strPre_append pat.data []
    rw [List.append_nil, h] at h2
    simp [h2]

/-! ### C1 -/

/-- C1: `call_function` never raises for a missing, disabled, or
argument-binding-failure case: a missing name yields a string mentioning
"not registered", a disabled entry a string mentioning "disabled", and a
binding failure a descriptive string embedding the binding error message. -/
theorem call_function_failure_modes (reg : Registry) (name : String)
    (kwargs : List (String × Val)) :
    (reg.find? (·.1 == name) = Option.none →
      call_function reg name kwargs =
        .ok (.str s!"Function {name} is not registered and cannot be called.") ∧
      containsSub s!"Function {name} is not registered and cannot be called."
        "not registered" = true) ∧
    (∀ e, reg.find? (·.1 == name) = some e → e.2.enabled = false →
      call_function reg name kwargs =
        .ok (.str s!"Function {name} is currently disabled and cannot be called.") ∧
      containsSub s!"Function {name} is currently disabled and cannot be called."
        "disabled" = true) ∧
    (∀ e msg, reg.find? (·.1 == name) = some e → e.2.enabled = true →
      bindArgs e.2.inst.function_ref.params kwargs = .error msg →
      call_function reg name kwargs =
        .ok (.str s!"Error binding arguments for {name}: {msg}") ∧
      containsSub s!"Error binding arguments for {name}: {msg}" msg = true) := by
  refine ⟨fun h => ⟨?_, ?_⟩, fun e he hd => ⟨?_, ?_⟩, fun e msg he hen hb => ⟨?_, ?_⟩⟩
  · unfold call_function
    rw [h]
  · show containsSub ("Function " ++ name ++ " is not registered and cannot be called.")
      "not registered" = true
    exact containsSub_skip _ _ _ (by decide)
  · simp [call_function, he, hd]
  · show containsSub ("Function " ++ name ++ " is currently disabled and cannot be called.")
      "disabled" = true
    exact containsSub_skip _ _ _ (by decide)
  · simp [call_function, he, hen, hb]
  · show containsSub ("Error binding arguments for " ++ name ++ ": " ++ msg ++ "") msg = true
    exact containsSub_extend _ _ _ (containsSub_tail _ _)

/-- Witness for C1 at a concrete registry: an unregistered name, a disabled
tool, and an enabled tool called with its required arguments omitted. -/
theorem call_function_failure_modes_witness :
    call_function exReg "missing" [] =
      .ok (.str "Function missing is not registered and cannot be called.") ∧
    call_function exReg "dTool" [] =
      .ok (.str "Function dTool is currently disabled and cannot be called.") ∧
    call_function exReg "addNumbers" [] =
      .ok (.str "Error binding arguments for addNumbers: missing a required argument: \x27a\x27") :=
  ⟨((call_function_failure_modes exReg "missing" []).1 rfl).1,
   ((call_function_failure_modes exReg "dTool" []).2.1 _ rfl rfl).1,
   ((call_function_failure_modes exReg "addNumbers" []).2.2 _ _ rfl rfl rfl).1⟩

/-! ### Lemmas about binding and default application -/

/-- A successful `sig.bind(**kwargs)` returns, for each formal parameter
present among the keyword arguments, that argument's value. -/
lemma bindArgs_ok_eq (params : List Param) (kwargs : List (String × Val))
    (bound : List (String × Val)) (h : bindArgs params kwargs = .ok bound) :
    bound = params.filterMap (fun p =>
      (kwargs.find? (·.1 == p.name)).map (fun kv => (p.name, kv.2))) := by
  unfold bindArgs at h
  split at h
  · exact absurd h (by simp)
  · split at h
    · exact absurd h (by simp)
    · injection h with h
      exact h.symm

/-- A name absent from the keyword arguments is absent from the bound
arguments. -/
lemma bound_find_none (params : List Param) (kwargs : List (String × Val))
    (k : String) (hk : kwargs.find? (·.1 == k) = Option.none) :
    (params.filterMap (fun p =>
      (kwargs.find? (·.1 == p.name)).map (fun kv => (p.name, kv.2)))).find?
        (·.1 == k) = Option.none := by
  induction params with
  | nil => rfl
  | cons p ps ih =>
    simp only [List.filterMap_cons]
    cases hf : kwargs.find? (·.1 == p.name) with
    | none => simpa using ih
    | some kv =>
      simp only [Option.map_some']
      have hne : (p.name == k) = false := by
        rw [Bool.eq_false_iff]
        intro hc
        rw [eq_of_beq hc] at hf
        rw [hf] at hk
        exact Option.noConfusion hk
      rw [List.find?_cons_of_neg _ (by simp [hne])]
      exact ih

/-! ### C3 -/

/-- C3: for a registered, enabled tool whose arguments bind successfully,
`call_function` applies the callable's declared defaults for the omitted
parameters, runs the body on the completed assignment, and returns the
result unmodified — the same result as calling the wrapped function
directly with the same named arguments. -/
theorem call_function_success (reg : Registry) (name : String)
    (kwargs : List (String × Val)) :
    ∀ e bound, reg.find? (·.1 == name) = some e → e.2.enabled = true →
      bindArgs e.2.inst.function_ref.params kwargs = .ok bound →
      call_function reg name kwargs =
        e.2.inst.function_ref.body
          (applyDefaults e.2.inst.function_ref.params bound) ∧
      call_function reg name kwargs = directCall e.2.inst.function_ref kwargs ∧
      (∀ p ∈ e.2.inst.function_ref.params,
        kwargs.find? (·.1 == p.name) = Option.none →
        ∀ d, p.default = some d →
          (p.name, d) ∈ applyDefaults e.2.inst.function_ref.params bound) := by
  intro e bound he hen hb
  refine ⟨?_, ?_, ?_⟩
  · simp [call_function, he, hen, hb]
  · simp [call_function, directCall, he, hen, hb]
  · intro p hp hnone d hd
    have hbe := bindArgs_ok_eq _ _ _ hb
    subst hbe
    unfold applyDefaults
    refine List.mem_filterMap.mpr ⟨p, hp, ?_⟩
    rw [bound_find_none _ _ _ hnone]
    simp [hd]

/-- Witness for C3: invoking the example adder with both arguments returns
their sum, and invoking the example weather tool without `unit` applies the
callable's own default. -/
theorem call_function_success_witness :
    call_function exReg "addNumbers" [("a", .int 2), ("b", .int 3)] =
      .ok (.int 5) ∧
    call_function exReg "currentWeather" [("location", .str "Paris")] =
      .ok (.list [.str "Paris", .str "celsius"]) :=
  ⟨(call_function_success exReg "addNumbers" [("a", .int 2), ("b", .int 3)]
      _ _ rfl rfl rfl).1,
   (call_function_success exReg "currentWeather" [("location", .str "Paris")]
      _ _ rfl rfl rfl).1⟩

/-! ### C10 -/

/-- C10: when the wrapped function itself raises, `call_function` propagates
the exception; only a binding-time TypeError is converted into a string
result. -/
theorem call_function_exception_modes (reg : Registry) (name : String)
    (kwargs : List (String × Val)) :
    (∀ e bound err, reg.find? (·.1 == name) = some e → e.2.enabled = true →
      bindArgs e.2.inst.function_ref.params kwargs = .ok bound →
      e.2.inst.function_ref.body
        (applyDefaults e.2.inst.function_ref.params bound) = .error err →
      call_function reg name kwargs = .error err) ∧
    (∀ e msg, reg.find? (·.1 == name) = some e → e.2.enabled = true →
      bindArgs e.2.inst.function_ref.params kwargs = .error msg →
      call_function reg name kwargs =
        .ok (.str s!"Error binding arguments for {name}: {msg}")) := by
  constructor
  · intro e bound err he hen hb hbody
    simp [call_function, he, hen, hb, hbody]
  · intro e msg he hen hb
    simp [call_function, he, hen, hb]

/-- Witness for C10: the raising example tool's exception comes out of
`call_function` unconverted, while a binding failure is converted. -/
theorem call_function_exception_modes_witness :
    call_function exReg "boom" [] = .error (.typeError "boom failed") ∧
    call_function exReg "addNumbers" [("z", .int 1)] =
      .ok (.str "Error binding arguments for addNumbers: missing a required argument: \x27a\x27") :=
  ⟨(call_function_exception_modes exReg "boom" []).1 _ _ _ rfl rfl rfl rfl,
   (call_function_exception_modes exReg "addNumbers" [("z", .int 1)]).2
      _ _ rfl rfl rfl⟩

/-! ### C4 -/

/-- C4: `tools()` returns the "no tools" sentinel `None` exactly when no
registered entry is enabled, and otherwise the `to_dict` projections of
exactly the enabled entries, in registration order, with length equal to
the number of enabled entries. -/
theorem tools_spec (reg : Registry) :
    (tools reg = Option.none ↔ reg.filter (fun e => e.2.enabled) = []) ∧
    (reg.filter (fun e => e.2.enabled) ≠ [] →
      tools reg =
        some ((reg.filter (fun e => e.2.enabled)).map
          (fun e => e.2.inst.to_dict)) ∧
      ∀ ts, tools reg = some ts →
        ts.length = (reg.filter (fun e => e.2.enabled)).length) := by
  have hmap : ((reg.filter (fun e => e.2.enabled)).map
      (fun e => (e.1, e.2.inst))).map (fun e => e.2.to_dict) =
      (reg.filter (fun e => e.2.enabled)).map (fun e => e.2.inst.to_dict) := by
    rw [List.map_map]
    rfl
  constructor
  · unfold tools get_registry
    by_cases h : reg.filter (fun e => e.2.enabled) = [] <;> simp [h]
  · intro h
    have htools : tools reg =
        some ((reg.filter (fun e => e.2.enabled)).map
          (fun e => e.2.inst.to_dict)) := by
      unfold tools get_registry
      rw [hmap]
      simp [h]
    refine ⟨htools, ?_⟩
    intro ts hts
    rw [htools] at hts
    injection hts with hts
    rw [← hts, List.length_map]

/-- Witness for C4: the example registry has three enabled tools, so
`tools()` returns their three schema documents. -/
theorem tools_spec_witness :
    tools exReg = some [exAddW.to_dict, exBoomW.to_dict, exWeatherW.to_dict] := by
  have h : exReg.filter (fun e => e.2.enabled) ≠ [] := by
    intro h
    have h2 : (exReg.filter (fun e => e.2.enabled)).length = 3 := rfl
    rw [h] at h2
    exact Nat.noConfusion h2
  exact ((tools_spec exReg).2 h).1

/-! ### C7 -/

/-- C7: `tool_choice` with no target never raises; it returns the literal
"auto" exactly when some registered entry's snapshot enabled flag is true,
and the unset sentinel `None` otherwise. -/
theorem tool_choice_no_ref (reg : Registry) :
    (∃ r, tool_choice reg Option.none = .ok r) ∧
    (tool_choice reg Option.none = .ok .auto ↔ ∃ e ∈ reg, e.2.enabled = true) ∧
    (tool_choice reg Option.none = .ok .unset ↔
      ¬ ∃ e ∈ reg, e.2.enabled = true) := by
  by_cases h : ∃ e ∈ reg, e.2.enabled = true
  · have hb : reg.any (fun e => e.2.enabled) = true :=
      List.any_eq_true.mpr (by simpa using h)
    refine ⟨⟨.auto, by simp [tool_choice, hb]⟩, ?_, ?_⟩ <;>
      simp [tool_choice, hb, h]
  · have hb : reg.any (fun e => e.2.enabled) = false := by
      rw [← Bool.not_eq_true]
      intro hc
      exact h (by simpa using List.any_eq_true.mp hc)
    refine ⟨⟨.unset, by simp [tool_choice, hb]⟩, ?_, ?_⟩ <;>
      simp [tool_choice, hb, h]

/-! ### C6 -/

/-- C6: `tool_choice` with a target raises for a non-callable target,
raises for a callable whose name is unregistered or disabled, and for a
registered enabled callable returns exactly the directive
`{"type": "function", "function": {"name": <name>}}`. -/
theorem tool_choice_with_ref (reg : Registry) :
    (∀ v : Val, tool_choice reg (some (.val v)) =
      .error (.valueError
        "The provided function_ref is not callable. Please provide a valid function.")) ∧
    (∀ f : PyFunc, reg.find? (·.1 == f.name) = Option.none →
      tool_choice reg (some (.func f)) =
        .error (.valueError
          s!"The function \x27{f.name}\x27 is either not registered in the FunctionRegistry or is disabled.")) ∧
    (∀ f e, reg.find? (·.1 == f.name) = some e → e.2.enabled = false →
      tool_choice reg (some (.func f)) =
        .error (.valueError
          s!"The function \x27{f.name}\x27 is either not registered in the FunctionRegistry or is disabled.")) ∧
    (∀ f e, reg.find? (·.1 == f.name) = some e → e.2.enabled = true →
      tool_choice reg (some (.func f)) =
        .ok (.choice (.dict [("type", .s "function"),
          ("function", .dict [("name", .s f.name)])]))) := by
  refine ⟨fun v => ?_, fun f hf => ?_, fun f e hf hd => ?_, fun f e hf hen => ?_⟩
  · simp [tool_choice, PyObj.isCallable]
  · simp [tool_choice, PyObj.isCallable, hf]
  · simp [tool_choice, PyObj.isCallable, hf, hd]
  · simp [tool_choice, PyObj.isCallable, hf, hen]

/-- Witness for C6: a non-callable target, an unregistered callable and a
disabled callable all raise; the enabled adder yields its directive. -/
theorem tool_choice_with_ref_witness :
    tool_choice exReg (some (.val (.int 3))) =
      .error (.valueError
        "The provided function_ref is not callable. Please provide a valid function.") ∧
    tool_choice exReg (some (.func exGhost)) =
      .error (.valueError
        "The function \x27ghost\x27 is either not registered in the FunctionRegistry or is disabled.") ∧
    tool_choice exReg (some (.func exDFunc)) =
      .error (.valueError
        "The function \x27dTool\x27 is either not registered in the FunctionRegistry or is disabled.") ∧
    tool_choice exReg (some (.func exAdd)) =
      .ok (.choice (.dict [("type", .s "function"),
        ("function", .dict [("name", .s "addNumbers")])])) :=
  ⟨(tool_choice_with_ref exReg).1 (.int 3),
   (tool_choice_with_ref exReg).2.1 exGhost rfl,
   (tool_choice_with_ref exReg).2.2.1 exDFunc _ rfl rfl,
   (tool_choice_with_ref exReg).2.2.2 exAdd _ rfl rfl⟩

lemma regMutate_key (nm : String) (b : Bool) (e : String × RegEntry) :
    (regMutate nm b e).1 = e.1 := by
  unfold regMutate
  split <;> rfl

lemma regMutate_enabled (nm : String) (b : Bool) (e : String × RegEntry) :
    (regMutate nm b e).2.enabled = e.2.enabled := by
  unfold regMutate
  split <;> rfl

lemma regMutate_to_dict (nm : String) (b : Bool) (e : String × RegEntry) :
    (regMutate nm b e).2.inst.to_dict = e.2.inst.to_dict := by
  unfold regMutate
  split <;> rfl

lemma regMutate_function_ref (nm : String) (b : Bool) (e : String × RegEntry) :
    (regMutate nm b e).2.inst.function_ref = e.2.inst.function_ref := by
  unfold regMutate
  split <;> rfl

/-- Looking up any key after the mutation finds the mutated entry. -/
lemma setWE_find? (reg : Registry) (nm : String) (b : Bool) (k : String) :
    (setWrapperEnabled reg nm b).find? (·.1 == k) =
      (reg.find? (·.1 == k)).map (regMutate nm b) := by
  induction reg with
  | nil => rfl
  | cons e es ih =>
    unfold setWrapperEnabled at *
    simp only [List.map_cons, List.find?_cons, regMutate_key]
    cases hk : e.1 == k
    · simpa using ih
    · rfl

/-- The enabled entries after the mutation are the mutated images of the
enabled entries before it. -/
lemma setWE_filter_enabled (reg : Registry) (nm : String) (b : Bool) :
    (setWrapperEnabled reg nm b).filter (fun e => e.2.enabled) =
      (reg.filter (fun e => e.2.enabled)).map (regMutate nm b) := by
  induction reg with
  | nil => rfl
  | cons e es ih =>
    unfold setWrapperEnabled at *
    simp only [List.map_cons, List.filter_cons, regMutate_enabled]
    cases he : e.2.enabled
    · simpa using ih
    · simpa using ih

/-- Schema export is unchanged by the attribute mutation. -/
lemma setWE_tools (reg : Registry) (nm : String) (b : Bool) :
    tools (setWrapperEnabled reg nm b) = tools reg := by
  unfold tools get_registry
  rw [setWE_filter_enabled]
  have hmaps : (((reg.filter (fun e => e.2.enabled)).map (regMutate nm b)).map
      (fun e => (e.1, e.2.inst))).map (fun e => e.2.to_dict) =
      (((reg.filter (fun e => e.2.enabled)).map
        (fun e => (e.1, e.2.inst))).map (fun e => e.2.to_dict)) := by
    simp only [List.map_map]
    apply List.map_congr_left
    intro e _
    show (regMutate nm b e).2.inst.to_dict = e.2.inst.to_dict
    exact regMutate_to_dict nm b e
  simp only [hmaps]

/-- The set of enabled names is unchanged by the attribute mutation. -/
lemma setWE_get_registry_keys (reg : Registry) (nm : String) (b : Bool) :
    (get_registry (setWrapperEnabled reg nm b)).map (·.1) =
      (get_registry reg).map (·.1) := by
  unfold get_registry
  rw [setWE_filter_enabled]
  simp only [List.map_map]
  apply List.map_congr_left
  intro e _
  show (regMutate nm b e).1 = e.1
  exact regMutate_key nm b e

/-- Operation `tool_choice` is unchanged by the attribute mutation. -/
lemma setWE_tool_choice (reg : Registry) (nm : String) (b : Bool)
    (fr : Option PyObj) :
    tool_choice (setWrapperEnabled reg nm b) fr = tool_choice reg fr := by
  cases fr with
  | none =>
    unfold tool_choice setWrapperEnabled
    rw [List.any_map]
    have : ((fun e : String × RegEntry => e.2.enabled) ∘ regMutate nm b) =
        (fun e : String × RegEntry => e.2.enabled) :=
      funext (fun e => regMutate_enabled nm b e)
    rw [this]
  | some r =>
    cases r with
    | val v => rfl
    | func f =>
      simp only [tool_choice, PyObj.isCallable, Bool.not_true, Bool.false_eq_true,
        if_false]
      rw [setWE_find?]
      cases h : reg.find? (·.1 == f.name) with
      | none => rfl
      | some e =>
        simp only [Option.map_some']
        unfold regMutate
        split <;> rfl

/-- Operation `call_function` is unchanged by the attribute mutation. -/
lemma setWE_call_function (reg : Registry) (nm : String) (b : Bool)
    (name : String) (kwargs : List (String × Val)) :
    call_function (setWrapperEnabled reg nm b) name kwargs =
      call_function reg name kwargs := by
  unfold call_function
  rw [setWE_find?]
  cases h : reg.find? (·.1 == name) with
  | none => rfl
  | some e =>
    simp only [Option.map_some']
    unfold regMutate
    split <;> rfl

/-- Overwriting the entry of a present key makes lookup return the new
entry. -/
lemma find?_overwrite (reg : Registry) (name : String) (nt : String × RegEntry)
    (h : reg.any (·.1 == name) = true) (hkey : nt.1 = name) :
    (reg.map (fun e => if e.1 == name then nt else e)).find? (·.1 == name) =
      some nt := by
  induction reg with
  | nil => simp at h
  | cons e es ih =>
    simp only [List.any_cons, Bool.or_eq_true] at h
    simp only [List.map_cons, List.find?_cons]
    cases he : e.1 == name
    · have h2 : es.any (fun x => x.1 == name) = true := by
        rcases h with h1 | h1
        · rw [he] at h1
          exact Bool.noConfusion h1
        · exact h1
      simp only [he, Bool.false_eq_true, if_false]
      exact ih h2
    · simp [he, hkey]

/-- Operation `register_function` always inserts or overwrites: afterwards the looked
up entry for `name` is exactly the new wrapper with its snapshot flag. -/
lemma register_function_find? (reg : Registry) (name : String)
    (t : ToolWrapper) :
    (register_function reg name t).find? (·.1 == name) =
      some (name, ⟨t, t.enabled⟩) := by
  unfold register_function
  by_cases h : reg.any (·.1 == name) = true
  · rw [if_pos h]
    exact find?_overwrite reg name _ h rfl
  · rw [if_neg h]
    have hnone : reg.find? (·.1 == name) = Option.none := by
      rw [List.find?_eq_none]
      intro x hx hpx
      exact h (List.any_eq_true.mpr ⟨x, hx, hpx⟩)
    rw [List.find?_append, hnone]
    simp [List.find?]

/-! ### C8 -/

/-- C8: `register_function` inserts or overwrites without raising (it is a
total operation, last writer wins) and snapshots the wrapper's enabled
flag; mutating the wrapper's `enabled` attribute afterwards leaves every
registry entry's enabled flag, and the results of `get_registry` (its
names), `tools`, `tool_choice` and `call_function`, unchanged. -/
theorem register_function_snapshot (reg : Registry) (name : String)
    (t : ToolWrapper) (b : Bool) :
    (register_function reg name t).find? (·.1 == name) =
      some (name, ⟨t, t.enabled⟩) ∧
    ((setWrapperEnabled (register_function reg name t) name b).map
        (fun e => (e.1, e.2.enabled)) =
      (register_function reg name t).map (fun e => (e.1, e.2.enabled))) ∧
    ((get_registry (setWrapperEnabled (register_function reg name t) name b)).map
        (·.1) =
      (get_registry (register_function reg name t)).map (·.1)) ∧
    tools (setWrapperEnabled (register_function reg name t) name b) =
      tools (register_function reg name t) ∧
    (∀ fr, tool_choice (setWrapperEnabled (register_function reg name t) name b)
        fr = tool_choice (register_function reg name t) fr) ∧
    (∀ kwargs, call_function
        (setWrapperEnabled (register_function reg name t) name b) name kwargs =
      call_function (register_function reg name t) name kwargs) := by
  refine ⟨register_function_find? reg name t, ?_,
    setWE_get_registry_keys _ _ _, setWE_tools _ _ _,
    fun fr => setWE_tool_choice _ _ _ fr,
    fun kwargs => setWE_call_function _ _ _ _ kwargs⟩
  unfold setWrapperEnabled
  simp only [List.map_map]
  apply List.map_congr_left
  intro e _
  show ((regMutate name b e).1, (regMutate name b e).2.enabled) =
    (e.1, e.2.enabled)
  rw [regMutate_key, regMutate_enabled]

/-! ### Properties of a successful `ToolWrapper.__init__` -/

/-- The fields of a wrapper built by a successful `__init__`. -/
lemma init_ok_fields (purpose : String) (required : Option (List String))
    (f : PyFunc) (enabled : Bool) (kwargs : List (String × KwVal))
    (tw : ToolWrapper)
    (h : ToolWrapper.init purpose required (some (.func f)) enabled kwargs =
      .ok tw) :
    tw.name = f.name ∧ tw.function_ref = f ∧ tw.enabled = enabled ∧
    tw.purpose = pyStrip purpose ∧ tw.required = required.getD [] ∧
    ∃ ps0, buildParams kwargs (descHintKeys kwargs) (typeHintKeys kwargs) =
        .ok ps0 ∧
      tw.parameters = attachDescriptions ps0 kwargs := by
  unfold ToolWrapper.init at h
  split at h
  · rename_i heq
    exact absurd heq (by simp)
  · rename_i v heq
    exact absurd heq (by simp)
  · rename_i f2 heq
    injection heq with heq
    injection heq with heq
    subst heq
    split at h
    · exact absurd h (by simp)
    · split at h
      · exact absurd h (by simp)
      · split at h
        · exact absurd h (by simp)
        · rename_i ps0 hps0
          split at h
          · exact absurd h (by simp)
          · injection h with h
            subst h
            exact ⟨rfl, rfl, rfl, rfl, rfl, ps0, hps0, rfl⟩

/-! ### C9 -/

/-- C9: the `tool` decorator with valid metadata builds a `ToolWrapper`
around the function, registers it under the function's name, and returns a
function that behaves exactly like the original on every call. -/
theorem tool_decorator_spec (purpose : String) (required : Option (List String))
    (enabled : Bool) (kwargs : List (String × KwVal)) (f : PyFunc)
    (reg : Registry) (tw : ToolWrapper)
    (h : ToolWrapper.init purpose required (some (.func f)) enabled kwargs =
      .ok tw) :
    tool purpose required enabled kwargs f reg =
      .ok (register_function reg f.name tw, wrapsWrapper f) ∧
    (register_function reg f.name tw).find? (·.1 == f.name) =
      some (f.name, ⟨tw, tw.enabled⟩) ∧
    tw.function_ref = f ∧ tw.name = f.name ∧
    (∀ args, directCall (wrapsWrapper f) args = directCall f args) := by
  have hf := init_ok_fields purpose required f enabled kwargs tw h
  refine ⟨?_, register_function_find? reg f.name tw, hf.2.1, hf.1,
    fun args => rfl⟩
  unfold tool
  rw [h]

/-- Witness for C9: decorating the example adder on an empty registry
registers it and the decorated function still adds. -/
theorem tool_decorator_spec_witness :
    tool "Add two numbers" (some ["a", "b"]) true
      [("a", .type .pInt), ("a_description", .string "the first"),
       ("b", .type .pInt), ("b_description", .string "the second")]
      exAdd [] =
      .ok ([("addNumbers", ⟨exAddW, true⟩)], wrapsWrapper exAdd) ∧
    directCall (wrapsWrapper exAdd) [("a", .int 2), ("b", .int 3)] =
      .ok (.int 5) :=
  ⟨(tool_decorator_spec "Add two numbers" (some ["a", "b"]) true
      [("a", .type .pInt), ("a_description", .string "the first"),
       ("b", .type .pInt), ("b_description", .string "the second")]
      exAdd [] exAddW rfl).1,
   ((tool_decorator_spec "Add two numbers" (some ["a", "b"]) true
      [("a", .type .pInt), ("a_description", .string "the first"),
       ("b", .type .pInt), ("b_description", .string "the second")]
      exAdd [] exAddW rfl).2.2.2.2 [("a", .int 2), ("b", .int 3)]).trans rfl⟩

/-! ### Characterizing the validation loops -/

/-- Membership in a deduplicated list is membership in the original. -/
lemma mem_dedupFirst (l : List String) (x : String) :
    x ∈ dedupFirst l ↔ x ∈ l := by
  induction l with
  | nil => simp [dedupFirst]
  | cons k ks ih =>
    simp only [dedupFirst, List.mem_cons, List.mem_filter, ih]
    by_cases hx : x = k
    · simp [hx]
    · simp [hx]

/-- Every type-hint key is a keyword-argument key. -/
lemma typeHintKeys_isSome (kwargs : List (String × KwVal)) :
    ∀ k ∈ typeHintKeys kwargs, (kwargs.find? (·.1 == k)).isSome := by
  intro k hk
  unfold typeHintKeys at hk
  rw [mem_dedupFirst] at hk
  obtain ⟨kv, hkv, hk1⟩ := List.mem_map.mp hk
  rw [List.find?_isSome]
  exact ⟨kv, List.mem_of_mem_filter hkv, by rw [hk1]; exact beq_self_eq_true k⟩

lemma checkParamsExist_ok_iff (fname : String) (sig ks : List String) :
    checkParamsExist fname sig ks = .ok () ↔
      ∀ k ∈ ks, sig.contains k = true := by
  induction ks with
  | nil => simp [checkParamsExist]
  | cons k ks ih =>
    unfold checkParamsExist
    by_cases h : sig.contains k = true
    · rw [if_pos h, ih]
      constructor
      · intro hall x hx
        rcases List.mem_cons.mp hx with h1 | h1
        · rw [h1]
          exact h
        · exact hall x h1
      · intro hall x hx
        exact hall x (List.mem_cons_of_mem _ hx)
    · rw [if_neg h]
      constructor
      · intro hc
        exact absurd hc (by simp)
      · intro hc
        exact absurd (hc k (List.mem_cons_self k ks)) h

lemma checkParamsExist_error (fname : String) (sig ks : List String)
    (h : ¬ ∀ k ∈ ks, sig.contains k = true) :
    ∃ k, k ∈ ks ∧ sig.contains k = false ∧
      checkParamsExist fname sig ks = .error (.valueError
        s!"Parameter \x27{k}\x27 doesn\x27t exist in the function \x27{fname}\x27") := by
  induction ks with
  | nil => exact absurd (by simp) h
  | cons k ks ih =>
    by_cases hk : sig.contains k = true
    · have h2 : ¬ ∀ x ∈ ks, sig.contains x = true := by
        intro hc
        refine h (fun x hx => ?_)
        rcases List.mem_cons.mp hx with h1 | h1
        · rw [h1]
          exact hk
        · exact hc x h1
      obtain ⟨k2, hk2, hf, heq⟩ := ih h2
      refine ⟨k2, List.mem_cons_of_mem _ hk2, hf, ?_⟩
      unfold checkParamsExist
      rw [if_pos hk]
      exact heq
    · refine ⟨k, List.mem_cons_self _ _, by simpa using hk, ?_⟩
      unfold checkParamsExist
      rw [if_neg hk]

lemma checkDescTargets_ok_iff (paramKeys ds : List String) :
    checkDescTargets paramKeys ds = .ok () ↔
      ∀ d ∈ ds, paramKeys.contains d = true := by
  induction ds with
  | nil => simp [checkDescTargets]
  | cons d ds ih =>
    unfold checkDescTargets
    by_cases h : paramKeys.contains d = true
    · rw [if_pos h, ih]
      constructor
      · intro hall x hx
        rcases List.mem_cons.mp hx with h1 | h1
        · rw [h1]
          exact h
        · exact hall x h1
      · intro hall x hx
        exact hall x (List.mem_cons_of_mem _ hx)
    · rw [if_neg h]
      constructor
      · intro hc
        exact absurd hc (by simp)
      · intro hc
        exact absurd (hc d (List.mem_cons_self d ds)) h

lemma checkDescTargets_error (paramKeys ds : List String)
    (h : ¬ ∀ d ∈ ds, paramKeys.contains d = true) :
    ∃ d, d ∈ ds ∧ paramKeys.contains d = false ∧
      checkDescTargets paramKeys ds = .error (.valueError
        s!"Description provided for \x27{d}\x27, but \x27{d}\x27 parameter is not present") := by
  induction ds with
  | nil => exact absurd (by simp) h
  | cons d ds ih =>
    by_cases hd : paramKeys.contains d = true
    · have h2 : ¬ ∀ x ∈ ds, paramKeys.contains x = true := by
        intro hc
        refine h (fun x hx => ?_)
        rcases List.mem_cons.mp hx with h1 | h1
        · rw [h1]
          exact hd
        · exact hc x h1
      obtain ⟨d2, hd2, hf, heq⟩ := ih h2
      refine ⟨d2, List.mem_cons_of_mem _ hd2, hf, ?_⟩
      unfold checkDescTargets
      rw [if_pos hd]
      exact heq
    · refine ⟨d, List.mem_cons_self _ _, by simpa using hd, ?_⟩
      unfold checkDescTargets
      rw [if_neg hd]

lemma checkRequired_ok_iff (paramNames rs : List String) :
    checkRequired paramNames rs = .ok () ↔
      ∀ r ∈ rs, paramNames.contains r = true := by
  induction rs with
  | nil => simp [checkRequired]
  | cons r rs ih =>
    unfold checkRequired
    by_cases h : paramNames.contains r = true
    · rw [if_pos h, ih]
      constructor
      · intro hall x hx
        rcases List.mem_cons.mp hx with h1 | h1
        · rw [h1]
          exact h
        · exact hall x h1
      · intro hall x hx
        exact hall x (List.mem_cons_of_mem _ hx)
    · rw [if_neg h]
      constructor
      · intro hc
        exact absurd hc (by simp)
      · intro hc
        exact absurd (hc r (List.mem_cons_self r rs)) h

lemma checkRequired_error (paramNames rs : List String)
    (h : ¬ ∀ r ∈ rs, paramNames.contains r = true) :
    ∃ r, r ∈ rs ∧ paramNames.contains r = false ∧
      checkRequired paramNames rs = .error (.valueError
        s!"Required parameter \x27{r}\x27 is not defined among parameters") := by
  induction rs with
  | nil => exact absurd (by simp) h
  | cons r rs ih =>
    by_cases hr : paramNames.contains r = true
    · have h2 : ¬ ∀ x ∈ rs, paramNames.contains x = true := by
        intro hc
        refine h (fun x hx => ?_)
        rcases List.mem_cons.mp hx with h1 | h1
        · rw [h1]
          exact hr
        · exact hc x h1
      obtain ⟨r2, hr2, hf, heq⟩ := ih h2
      refine ⟨r2, List.mem_cons_of_mem _ hr2, hf, ?_⟩
      unfold checkRequired
      rw [if_pos hr]
      exact heq
    · refine ⟨r, List.mem_cons_self _ _, by simpa using hr, ?_⟩
      unfold checkRequired
      rw [if_neg hr]

/-- When every key is a keyword argument with a description and a
non-empty enum hint, `buildParams` succeeds and yields entries named by the
keys, in order. -/
lemma buildParams_ok (kwargs : List (String × KwVal)) (descKeys : List String)
    (ks : List String)
    (hsome : ∀ k ∈ ks, (kwargs.find? (·.1 == k)).isSome)
    (hdesc : ∀ k ∈ ks, descKeys.contains k = true)
    (henum : ∀ k ∈ ks, kwEnumOk kwargs k = true) :
    ∃ ps, buildParams kwargs descKeys ks = .ok ps ∧
      ps.map (·.name) = ks := by
  induction ks with
  | nil => exact ⟨[], rfl, rfl⟩
  | cons k ks ih =>
    obtain ⟨ps, hps, hnames⟩ := ih
      (fun x hx => hsome x (List.mem_cons_of_mem _ hx))
      (fun x hx => hdesc x (List.mem_cons_of_mem _ hx))
      (fun x hx => henum x (List.mem_cons_of_mem _ hx))
    have hd := hdesc k (List.mem_cons_self _ _)
    have hk := hsome k (List.mem_cons_self _ _)
    obtain ⟨kv, hkv⟩ := Option.isSome_iff_exists.mp hk
    have hek := henum k (List.mem_cons_self _ _)
    simp only [kwEnumOk, hkv] at hek
    cases hv : kv.2 with
    | enum vs =>
      rw [hv] at hek
      simp only [Bool.not_eq_true'] at hek
      refine ⟨ParamEntry.mk k "array" (some vs) Option.none :: ps, ?_, ?_⟩
      · simp only [buildParams, hd, if_true, hkv, addParameter, hv, hek,
          Bool.false_eq_true, if_false, hps]
      · simp [hnames]
    | type t =>
      refine ⟨ParamEntry.mk k t.schemaType Option.none Option.none :: ps, ?_, ?_⟩
      · simp only [buildParams, hd, if_true, hkv, addParameter, hv, hps]
      · simp [hnames]
    | string c =>
      refine ⟨ParamEntry.mk k "string" Option.none Option.none :: ps, ?_, ?_⟩
      · simp only [buildParams, hd, if_true, hkv, addParameter, hv, hps]
      · simp [hnames]

/-- Conversely, when every key is a keyword argument, a successful
`buildParams` means every key had a description and a non-empty enum hint,
and the built entries are named by the keys. -/
lemma buildParams_ok_inv (kwargs : List (String × KwVal))
    (descKeys : List String) (ks : List String) (ps : List ParamEntry)
    (hsome : ∀ k ∈ ks, (kwargs.find? (·.1 == k)).isSome)
    (h : buildParams kwargs descKeys ks = .ok ps) :
    (∀ k ∈ ks, descKeys.contains k = true) ∧
    (∀ k ∈ ks, kwEnumOk kwargs k = true) ∧
    ps.map (·.name) = ks := by
  induction ks generalizing ps with
  | nil =>
    refine ⟨by simp, by simp, ?_⟩
    unfold buildParams at h
    injection h with h
    rw [← h]
    rfl
  | cons k ks ih =>
    have hk := hsome k (List.mem_cons_self _ _)
    obtain ⟨kv, hkv⟩ := Option.isSome_iff_exists.mp hk
    unfold buildParams at h
    by_cases hd : descKeys.contains k = true
    · rw [if_pos hd, hkv] at h
      simp only [] at h
      cases hv : kv.2 with
      | enum vs =>
        rw [hv] at h
        simp only [addParameter] at h
        by_cases he : vs.isEmpty = true
        · rw [if_pos he] at h
          exact absurd h (by simp)
        · rw [if_neg he] at h
          cases hbp : buildParams kwargs descKeys ks with
          | error e =>
            rw [hbp] at h
            exact absurd h (by simp)
          | ok ps2 =>
            rw [hbp] at h
            injection h with h
            obtain ⟨ih1, ih2, ih3⟩ := ih ps2
              (fun x hx => hsome x (List.mem_cons_of_mem _ hx)) hbp
            refine ⟨?_, ?_, ?_⟩
            · intro x hx
              rcases List.mem_cons.mp hx with h1 | h1
              · rw [h1]
                exact hd
              · exact ih1 x h1
            · intro x hx
              rcases List.mem_cons.mp hx with h1 | h1
              · rw [h1]
                simp only [kwEnumOk, hkv, hv]
                simpa using he
              · exact ih2 x h1
            · rw [← h]
              simpa using ih3
      | type t =>
        rw [hv] at h
        simp only [addParameter] at h
        cases hbp : buildParams kwargs descKeys ks with
        | error e =>
          rw [hbp] at h
          exact absurd h (by simp)
        | ok ps2 =>
          rw [hbp] at h
          injection h with h
          obtain ⟨ih1, ih2, ih3⟩ := ih ps2
            (fun x hx => hsome x (List.mem_cons_of_mem _ hx)) hbp
          refine ⟨?_, ?_, ?_⟩
          · intro x hx
            rcases List.mem_cons.mp hx with h1 | h1
            · rw [h1]
              exact hd
            · exact ih1 x h1
          · intro x hx
            rcases List.mem_cons.mp hx with h1 | h1
            · rw [h1]
              simp [kwEnumOk, hkv, hv]
            · exact ih2 x h1
          · rw [← h]
            simpa using ih3
      | string c =>
        rw [hv] at h
        simp only [addParameter] at h
        cases hbp : buildParams kwargs descKeys ks with
        | error e =>
          rw [hbp] at h
          exact absurd h (by simp)
        | ok ps2 =>
          rw [hbp] at h
          injection h with h
          obtain ⟨ih1, ih2, ih3⟩ := ih ps2
            (fun x hx => hsome x (List.mem_cons_of_mem _ hx)) hbp
          refine ⟨?_, ?_, ?_⟩
          · intro x hx
            rcases List.mem_cons.mp hx with h1 | h1
            · rw [h1]
              exact hd
            · exact ih1 x h1
          · intro x hx
            rcases List.mem_cons.mp hx with h1 | h1
            · rw [h1]
              simp [kwEnumOk, hkv, hv]
            · exact ih2 x h1
          · rw [← h]
            simpa using ih3
    · rw [if_neg hd] at h
      exact absurd h (by simp)

/-- When every key is present with a non-empty enum hint but some key lacks
a description, `buildParams` fails naming the first such key. -/
lemma buildParams_error_missing_desc (kwargs : List (String × KwVal))
    (descKeys : List String) (ks : List String)
    (hsome : ∀ k ∈ ks, (kwargs.find? (·.1 == k)).isSome)
    (henum : ∀ k ∈ ks, kwEnumOk kwargs k = true)
    (h : ¬ ∀ k ∈ ks, descKeys.contains k = true) :
    ∃ k, k ∈ ks ∧ descKeys.contains k = false ∧
      buildParams kwargs descKeys ks = .error (.valueError
        s!"Description for \x27{k}\x27 not provided") := by
  induction ks with
  | nil => exact absurd (by simp) h
  | cons k ks ih =>
    by_cases hd : descKeys.contains k = true
    · have h2 : ¬ ∀ x ∈ ks, descKeys.contains x = true := by
        intro hc
        refine h (fun x hx => ?_)
        rcases List.mem_cons.mp hx with h1 | h1
        · rw [h1]
          exact hd
        · exact hc x h1
      obtain ⟨k2, hk2, hf, heq⟩ := ih
        (fun x hx => hsome x (List.mem_cons_of_mem _ hx))
        (fun x hx => henum x (List.mem_cons_of_mem _ hx)) h2
      refine ⟨k2, List.mem_cons_of_mem _ hk2, hf, ?_⟩
      have hk := hsome k (List.mem_cons_self _ _)
      obtain ⟨kv, hkv⟩ := Option.isSome_iff_exists.mp hk
      have hek := henum k (List.mem_cons_self _ _)
      simp only [kwEnumOk, hkv] at hek
      cases hv : kv.2 with
      | enum vs =>
        rw [hv] at hek
        simp only [Bool.not_eq_true'] at hek
        simp only [buildParams, hd, if_true, hkv, addParameter, hv, hek,
          Bool.false_eq_true, if_false, heq]
      | type t =>
        simp only [buildParams, hd, if_true, hkv, addParameter, hv, heq]
      | string c =>
        simp only [buildParams, hd, if_true, hkv, addParameter, hv, heq]
    · refine ⟨k, List.mem_cons_self _ _, by simpa using hd, ?_⟩
      unfold buildParams
      rw [if_neg hd]

/-- When every key has a description but some key's enum hint is empty,
`buildParams` fails naming the first such key. -/
lemma buildParams_error_empty_enum (kwargs : List (String × KwVal))
    (descKeys : List String) (ks : List String)
    (hsome : ∀ k ∈ ks, (kwargs.find? (·.1 == k)).isSome)
    (hdesc : ∀ k ∈ ks, descKeys.contains k = true)
    (h : ¬ ∀ k ∈ ks, kwEnumOk kwargs k = true) :
    ∃ k, k ∈ ks ∧ kwEnumOk kwargs k = false ∧
      buildParams kwargs descKeys ks = .error (.valueError
        s!"Enum for parameter \x27{k}\x27 must have at least one value.") := by
  induction ks with
  | nil => exact absurd (by simp) h
  | cons k ks ih =>
    have hk := hsome k (List.mem_cons_self _ _)
    obtain ⟨kv, hkv⟩ := Option.isSome_iff_exists.mp hk
    have hd := hdesc k (List.mem_cons_self _ _)
    by_cases hek : kwEnumOk kwargs k = true
    · have h2 : ¬ ∀ x ∈ ks, kwEnumOk kwargs x = true := by
        intro hc
        refine h (fun x hx => ?_)
        rcases List.mem_cons.mp hx with h1 | h1
        · rw [h1]
          exact hek
        · exact hc x h1
      obtain ⟨k2, hk2, hf, heq⟩ := ih
        (fun x hx => hsome x (List.mem_cons_of_mem _ hx))
        (fun x hx => hdesc x (List.mem_cons_of_mem _ hx)) h2
      refine ⟨k2, List.mem_cons_of_mem _ hk2, hf, ?_⟩
      simp only [kwEnumOk, hkv] at hek
      cases hv : kv.2 with
      | enum vs =>
        rw [hv] at hek
        simp only [Bool.not_eq_true'] at hek
        simp only [buildParams, hd, if_true, hkv, addParameter, hv, hek,
          Bool.false_eq_true, if_false, heq]
      | type t =>
        simp only [buildParams, hd, if_true, hkv, addParameter, hv, heq]
      | string c =>
        simp only [buildParams, hd, if_true, hkv, addParameter, hv, heq]
    · refine ⟨k, List.mem_cons_self _ _, by simpa using hek, ?_⟩
      simp only [kwEnumOk, hkv] at hek
      cases hv : kv.2 with
      | enum vs =>
        rw [hv] at hek
        have he : vs.isEmpty = true := by
          by_contra hc
          exact hek (by simpa using hc)
        simp only [buildParams, hd, if_true, hkv, addParameter, hv, he,
          if_true]
      | type t =>
        rw [hv] at hek
        exact absurd rfl hek
      | string c =>
        rw [hv] at hek
        exact absurd rfl hek

/-- Attaching descriptions does not change the entry names. -/
lemma attachDescriptions_names (ps : List ParamEntry)
    (kwargs : List (String × KwVal)) :
    (attachDescriptions ps kwargs).map (·.name) = ps.map (·.name) := by
  unfold attachDescriptions
  induction kwargs generalizing ps with
  | nil => rfl
  | cons kv kws ih =>
    simp only [List.foldl_cons]
    rw [ih]
    by_cases h : pyEndsWith kv.1 "_description" = true
    · simp only [h, if_true, List.map_map]
      apply List.map_congr_left
      intro p _
      show (if p.name == pyReplace kv.1 "_description" "" then
        { p with description := some kv.2 } else p).name = p.name
      split <;> rfl
    · simp [h]

/-! ### Message lemmas: each construction error names the offending name -/

lemma mentions_unknown_param (k fname : String) :
    containsSub
      s!"Parameter \x27{k}\x27 doesn\x27t exist in the function \x27{fname}\x27"
      k = true := by
  show containsSub ("Parameter \x27" ++ k ++
    "\x27 doesn\x27t exist in the function \x27" ++ fname ++ "\x27") k = true
  exact containsSub_extend _ _ _ (containsSub_extend _ _ _
    (containsSub_extend _ _ _ (containsSub_tail _ _)))

lemma mentions_orphan_desc (d : String) :
    containsSub
      s!"Description provided for \x27{d}\x27, but \x27{d}\x27 parameter is not present"
      d = true := by
  show containsSub ("Description provided for \x27" ++ d ++ "\x27, but \x27" ++
    d ++ "\x27 parameter is not present") d = true
  exact containsSub_extend _ _ _ (containsSub_extend _ _ _
    (containsSub_extend _ _ _ (containsSub_tail _ _)))

lemma mentions_missing_desc (k : String) :
    containsSub s!"Description for \x27{k}\x27 not provided" k = true := by
  show containsSub ("Description for \x27" ++ k ++ "\x27 not provided") k = true
  exact containsSub_extend _ _ _ (containsSub_tail _ _)

lemma mentions_empty_enum (k : String) :
    containsSub s!"Enum for parameter \x27{k}\x27 must have at least one value."
      k = true := by
  show containsSub ("Enum for parameter \x27" ++ k ++
    "\x27 must have at least one value.") k = true
  exact containsSub_extend _ _ _ (containsSub_tail _ _)

lemma mentions_required_param (r : String) :
    containsSub
      s!"Required parameter \x27{r}\x27 is not defined among parameters"
      r = true := by
  show containsSub ("Required parameter \x27" ++ r ++
    "\x27 is not defined among parameters") r = true
  exact containsSub_extend _ _ _ (containsSub_tail _ _)

/-- A successful `__init__` means all four validation steps passed. -/
lemma init_ok_inv (purpose : String) (required : Option (List String))
    (f : PyFunc) (enabled : Bool) (kwargs : List (String × KwVal))
    (tw : ToolWrapper)
    (h : ToolWrapper.init purpose required (some (.func f)) enabled kwargs =
      .ok tw) :
    checkParamsExist f.name (f.params.map (·.name)) (typeHintKeys kwargs) =
      .ok () ∧
    checkDescTargets (typeHintKeys kwargs) (descHintKeys kwargs) = .ok () ∧
    ∃ ps0, buildParams kwargs (descHintKeys kwargs) (typeHintKeys kwargs) =
        .ok ps0 ∧
      checkRequired ((attachDescriptions ps0 kwargs).map (·.name))
        (required.getD []) = .ok () := by
  unfold ToolWrapper.init at h
  split at h
  · rename_i heq
    exact absurd heq (by simp)
  · rename_i v heq
    exact absurd heq (by simp)
  · rename_i f2 heq
    injection heq with heq
    injection heq with heq
    subst heq
    split at h
    · exact absurd h (by simp)
    · rename_i u1 hc1
      split at h
      · exact absurd h (by simp)
      · rename_i u2 hc2
        split at h
        · exact absurd h (by simp)
        · rename_i ps0 hps0
          split at h
          · exact absurd h (by simp)
          · rename_i u4 hc4
            cases u1
            cases u2
            cases u4
            exact ⟨hc1, hc2, ps0, hps0, hc4⟩

/-- Conversely, four passing validation steps make `__init__` succeed with
the expected record. -/
lemma init_mk (purpose : String) (required : Option (List String))
    (f : PyFunc) (enabled : Bool) (kwargs : List (String × KwVal))
    (ps0 : List ParamEntry)
    (hc1 : checkParamsExist f.name (f.params.map (·.name))
      (typeHintKeys kwargs) = .ok ())
    (hc2 : checkDescTargets (typeHintKeys kwargs) (descHintKeys kwargs) =
      .ok ())
    (hps : buildParams kwargs (descHintKeys kwargs) (typeHintKeys kwargs) =
      .ok ps0)
    (hc4 : checkRequired ((attachDescriptions ps0 kwargs).map (·.name))
      (required.getD []) = .ok ()) :
    ToolWrapper.init purpose required (some (.func f)) enabled kwargs =
      .ok { name := f.name, function_ref := f, enabled := enabled,
            purpose := pyStrip purpose,
            parameters := attachDescriptions ps0 kwargs,
            required := required.getD [] } := by
  unfold ToolWrapper.init
  simp only [hc1, hc2, hps, hc4]

/-! ### C5 -/

/-- C5: `ToolWrapper.__init__` succeeds exactly when all validation rules
hold, and each isolated violation — unknown type-hint parameter, orphan
description, missing description, empty enum, required name not among the
parameters — fails with a descriptive error naming the offending name. -/
theorem toolwrapper_init_validation (purpose : String) (required : List String)
    (f : PyFunc) (enabled : Bool) (kwargs : List (String × KwVal)) :
    ((∃ tw, ToolWrapper.init purpose (some required) (some (.func f)) enabled
        kwargs = .ok tw) ↔ ValidHints f required kwargs) ∧
    ((¬ ∀ k ∈ typeHintKeys kwargs,
        (f.params.map (·.name)).contains k = true) →
      ∃ k, k ∈ typeHintKeys kwargs ∧
        (f.params.map (·.name)).contains k = false ∧
        ToolWrapper.init purpose (some required) (some (.func f)) enabled
          kwargs = .error (.valueError
            s!"Parameter \x27{k}\x27 doesn\x27t exist in the function \x27{f.name}\x27") ∧
        containsSub
          s!"Parameter \x27{k}\x27 doesn\x27t exist in the function \x27{f.name}\x27"
          k = true) ∧
    ((∀ k ∈ typeHintKeys kwargs,
        (f.params.map (·.name)).contains k = true) →
      (¬ ∀ d ∈ descHintKeys kwargs,
        (typeHintKeys kwargs).contains d = true) →
      ∃ d, d ∈ descHintKeys kwargs ∧
        (typeHintKeys kwargs).contains d = false ∧
        ToolWrapper.init purpose (some required) (some (.func f)) enabled
          kwargs = .error (.valueError
            s!"Description provided for \x27{d}\x27, but \x27{d}\x27 parameter is not present") ∧
        containsSub
          s!"Description provided for \x27{d}\x27, but \x27{d}\x27 parameter is not present"
          d = true) ∧
    ((∀ k ∈ typeHintKeys kwargs,
        (f.params.map (·.name)).contains k = true) →
      (∀ d ∈ descHintKeys kwargs, (typeHintKeys kwargs).contains d = true) →
      (∀ k ∈ typeHintKeys kwargs, kwEnumOk kwargs k = true) →
      (¬ ∀ k ∈ typeHintKeys kwargs,
        (descHintKeys kwargs).contains k = true) →
      ∃ k, k ∈ typeHintKeys kwargs ∧
        (descHintKeys kwargs).contains k = false ∧
        ToolWrapper.init purpose (some required) (some (.func f)) enabled
          kwargs = .error (.valueError
            s!"Description for \x27{k}\x27 not provided") ∧
        containsSub s!"Description for \x27{k}\x27 not provided" k = true) ∧
    ((∀ k ∈ typeHintKeys kwargs,
        (f.params.map (·.name)).contains k = true) →
      (∀ d ∈ descHintKeys kwargs, (typeHintKeys kwargs).contains d = true) →
      (∀ k ∈ typeHintKeys kwargs, (descHintKeys kwargs).contains k = true) →
      (¬ ∀ k ∈ typeHintKeys kwargs, kwEnumOk kwargs k = true) →
      ∃ k, k ∈ typeHintKeys kwargs ∧ kwEnumOk kwargs k = false ∧
        ToolWrapper.init purpose (some required) (some (.func f)) enabled
          kwargs = .error (.valueError
            s!"Enum for parameter \x27{k}\x27 must have at least one value.") ∧
        containsSub
          s!"Enum for parameter \x27{k}\x27 must have at least one value."
          k = true) ∧
    ((∀ k ∈ typeHintKeys kwargs,
        (f.params.map (·.name)).contains k = true) →
      (∀ d ∈ descHintKeys kwargs, (typeHintKeys kwargs).contains d = true) →
      (∀ k ∈ typeHintKeys kwargs, (descHintKeys kwargs).contains k = true) →
      (∀ k ∈ typeHintKeys kwargs, kwEnumOk kwargs k = true) →
      (¬ ∀ r ∈ required, (typeHintKeys kwargs).contains r = true) →
      ∃ r, r ∈ required ∧ (typeHintKeys kwargs).contains r = false ∧
        ToolWrapper.init purpose (some required) (some (.func f)) enabled
          kwargs = .error (.valueError
            s!"Required parameter \x27{r}\x27 is not defined among parameters") ∧
        containsSub
          s!"Required parameter \x27{r}\x27 is not defined among parameters"
          r = true) := by
  have hsome := typeHintKeys_isSome kwargs
  refine ⟨⟨?_, ?_⟩, ?_, ?_, ?_, ?_, ?_⟩
  · -- success implies the rules
    rintro ⟨tw, h⟩
    obtain ⟨hc1, hc2, ps0, hps0, hc4⟩ :=
      init_ok_inv purpose (some required) f enabled kwargs tw h
    obtain ⟨r3, r4, hnames⟩ :=
      buildParams_ok_inv kwargs (descHintKeys kwargs) (typeHintKeys kwargs)
        ps0 hsome hps0
    refine ⟨(checkParamsExist_ok_iff _ _ _).mp hc1,
      (checkDescTargets_ok_iff _ _).mp hc2, r3, r4, ?_⟩
    have hr := (checkRequired_ok_iff _ _).mp hc4
    intro r hr2
    have := hr r hr2
    rwa [attachDescriptions_names, hnames] at this
  · -- the rules imply success
    rintro ⟨r1, r2, r3, r4, r5⟩
    obtain ⟨ps0, hps, hnames⟩ :=
      buildParams_ok kwargs (descHintKeys kwargs) (typeHintKeys kwargs)
        hsome r3 r4
    refine ⟨_, init_mk purpose (some required) f enabled kwargs ps0
      ((checkParamsExist_ok_iff _ _ _).mpr r1)
      ((checkDescTargets_ok_iff _ _).mpr r2)
      hps ((checkRequired_ok_iff _ _).mpr ?_)⟩
    intro r hr
    rw [attachDescriptions_names, hnames]
    exact r5 r hr
  · -- (i) unknown parameter
    intro hviol
    obtain ⟨k, hk, hkf, heq⟩ :=
      checkParamsExist_error f.name (f.params.map (·.name))
        (typeHintKeys kwargs) hviol
    refine ⟨k, hk, hkf, ?_, mentions_unknown_param k f.name⟩
    unfold ToolWrapper.init
    simp only [heq]
  · -- (ii) orphan description
    intro r1 hviol
    have hc1 := (checkParamsExist_ok_iff f.name _ _).mpr r1
    obtain ⟨d, hd, hdf, heq⟩ :=
      checkDescTargets_error (typeHintKeys kwargs) (descHintKeys kwargs) hviol
    refine ⟨d, hd, hdf, ?_, mentions_orphan_desc d⟩
    unfold ToolWrapper.init
    simp only [hc1, heq]
  · -- (iii) missing description
    intro r1 r2 henum hviol
    have hc1 := (checkParamsExist_ok_iff f.name _ _).mpr r1
    have hc2 := (checkDescTargets_ok_iff _ _).mpr r2
    obtain ⟨k, hk, hkf, heq⟩ :=
      buildParams_error_missing_desc kwargs (descHintKeys kwargs)
        (typeHintKeys kwargs) hsome henum hviol
    refine ⟨k, hk, hkf, ?_, mentions_missing_desc k⟩
    unfold ToolWrapper.init
    simp only [hc1, hc2, heq]
  · -- (iv) empty enum
    intro r1 r2 r3 hviol
    have hc1 := (checkParamsExist_ok_iff f.name _ _).mpr r1
    have hc2 := (checkDescTargets_ok_iff _ _).mpr r2
    obtain ⟨k, hk, hkf, heq⟩ :=
      buildParams_error_empty_enum kwargs (descHintKeys kwargs)
        (typeHintKeys kwargs) hsome r3 hviol
    refine ⟨k, hk, hkf, ?_, mentions_empty_enum k⟩
    unfold ToolWrapper.init
    simp only [hc1, hc2, heq]
  · -- (v) required name not among parameters
    intro r1 r2 r3 r4 hviol
    have hc1 := (checkParamsExist_ok_iff f.name _ _).mpr r1
    have hc2 := (checkDescTargets_ok_iff _ _).mpr r2
    obtain ⟨ps0, hps, hnames⟩ :=
      buildParams_ok kwargs (descHintKeys kwargs) (typeHintKeys kwargs)
        hsome r3 r4
    have hN : (attachDescriptions ps0 kwargs).map (·.name) =
        typeHintKeys kwargs :=
      (attachDescriptions_names ps0 kwargs).trans hnames
    have hviol2 : ¬ ∀ r ∈ required,
        ((attachDescriptions ps0 kwargs).map (·.name)).contains r = true := by
      rw [hN]
      exact hviol
    obtain ⟨r, hr, hrf, heq⟩ :=
      checkRequired_error ((attachDescriptions ps0 kwargs).map (·.name))
        required hviol2
    rw [hN] at hrf
    refine ⟨r, hr, hrf, ?_, mentions_required_param r⟩
    unfold ToolWrapper.init
    simp only [hc1, hc2, hps, Option.getD_some, heq]

/-- Witness for C5: the example adder's metadata satisfies the rules and
constructs, while a type hint for a nonexistent parameter fails with an
error naming it. -/
theorem toolwrapper_init_validation_witness :
    (∃ tw, ToolWrapper.init "Add two numbers" (some ["a", "b"])
      (some (.func exAdd)) true
      [("a", .type .pInt), ("a_description", .string "the first"),
       ("b", .type .pInt), ("b_description", .string "the second")] =
      .ok tw) ∧
    (∃ k, k ∈ typeHintKeys [("z", KwVal.type .pInt),
        ("z_description", KwVal.string "bogus")] ∧
      (exAdd.params.map (·.name)).contains k = false ∧
      ToolWrapper.init "p" (some []) (some (.func exAdd)) true
        [("z", .type .pInt), ("z_description", .string "bogus")] =
        .error (.valueError
          s!"Parameter \x27{k}\x27 doesn\x27t exist in the function \x27{exAdd.name}\x27") ∧
      containsSub
        s!"Parameter \x27{k}\x27 doesn\x27t exist in the function \x27{exAdd.name}\x27"
        k = true) :=
  ⟨(toolwrapper_init_validation "Add two numbers" ["a", "b"] exAdd true
      [("a", .type .pInt), ("a_description", .string "the first"),
       ("b", .type .pInt), ("b_description", .string "the second")]).1.mpr
    (by refine ⟨?_, ?_, ?_, ?_, ?_⟩ <;> decide),
   (toolwrapper_init_validation "p" [] exAdd true
      [("z", .type .pInt), ("z_description", .string "bogus")]).2.1
    (by decide)⟩

lemma contains_iff_mem (l : List String) (x : String) :
    l.contains x = true ↔ x ∈ l := by
  simp [List.contains, List.elem_iff]

/-- An `enum` field appears in a parameter's property dictionary only for a
stored non-empty enum. -/
lemma propFields_mem_enum (p : ParamEntry) (j : JVal)
    (h : ("enum", j) ∈ propFields p) :
    ∃ vs, p.enum = some vs ∧ vs.isEmpty = false := by
  unfold propFields at h
  cases he : p.enum with
  | none =>
    cases hd : p.description with
    | none => simp [he, hd] at h
    | some d =>
      by_cases hdt : d.truthy = true <;> simp [he, hd, hdt] at h
  | some vs =>
    by_cases hve : vs.isEmpty = true
    · cases hd : p.description with
      | none => simp [he, hd, hve] at h
      | some d =>
        by_cases hdt : d.truthy = true <;> simp [he, hd, hdt, hve] at h
    · exact ⟨vs, rfl, by simpa using hve⟩

/-- A `description` field appears in a parameter's property dictionary only
for a stored truthy description. -/
lemma propFields_mem_description (p : ParamEntry) (j : JVal)
    (h : ("description", j) ∈ propFields p) :
    ∃ d, p.description = some d ∧ d.truthy = true := by
  unfold propFields at h
  cases hd : p.description with
  | none =>
    cases he : p.enum with
    | none => simp [he, hd] at h
    | some vs =>
      by_cases hve : vs.isEmpty = true <;> simp [he, hd, hve] at h
  | some d =>
    by_cases hdt : d.truthy = true
    · exact ⟨d, rfl, hdt⟩
    · cases he : p.enum with
      | none => simp [he, hd, hdt] at h
      | some vs =>
        by_cases hve : vs.isEmpty = true <;> simp [he, hd, hdt, hve] at h

/-! ### C2 -/

/-- C2 (amended): for a validly constructed wrapper, `to_dict` is the
JSON-shaped projection with the trimmed purpose as description; every
property key is a type-hint key; `enum` and `description` sub-keys appear
only for non-null (truthy) stored values; and the `required` list consists
of the distinct construction-required names in parameter-map order (not
necessarily the construction list's own order or multiplicity). -/
theorem to_dict_spec (purpose : String) (required : Option (List String))
    (f : PyFunc) (enabled : Bool) (kwargs : List (String × KwVal))
    (tw : ToolWrapper)
    (h : ToolWrapper.init purpose required (some (.func f)) enabled kwargs =
      .ok tw) :
    tw.to_dict = .dict [("type", .s "function"),
      ("function", .dict
        [("name", .s f.name),
         ("description", .s (pyStrip purpose)),
         ("parameters", .dict
           [("type", .s "object"),
            ("properties", .dict (tw.parameters.map
              (fun p => (p.name, propDict p)))),
            ("required", .list (tw.requiredFields.map .s))])])] ∧
    tw.parameters.map (·.name) = typeHintKeys kwargs ∧
    (∀ p ∈ tw.parameters,
      (∀ j, ("enum", j) ∈ propFields p →
        ∃ vs, p.enum = some vs ∧ vs.isEmpty = false) ∧
      (∀ j, ("description", j) ∈ propFields p →
        ∃ d, p.description = some d ∧ d.truthy = true)) ∧
    tw.requiredFields = (typeHintKeys kwargs).filter
      (fun n => (required.getD []).contains n) ∧
    (∀ n, n ∈ tw.requiredFields ↔ n ∈ required.getD []) := by
  obtain ⟨hname, href, hen, hpurp, hreq, ps0, hps0, hpar⟩ :=
    init_ok_fields purpose required f enabled kwargs tw h
  obtain ⟨hc1, hc2, ps1, hps1, hc4⟩ :=
    init_ok_inv purpose required f enabled kwargs tw h
  have hps01 : ps0 = ps1 := by
    rw [hps0] at hps1
    injection hps1
  subst hps01
  obtain ⟨_, _, hnames0⟩ :=
    buildParams_ok_inv kwargs (descHintKeys kwargs) (typeHintKeys kwargs)
      ps0 (typeHintKeys_isSome kwargs) hps0
  have hnames : tw.parameters.map (·.name) = typeHintKeys kwargs := by
    rw [hpar, attachDescriptions_names, hnames0]
  refine ⟨?_, hnames, ?_, ?_, ?_⟩
  · unfold ToolWrapper.to_dict ToolWrapper.propsOf
    rw [hname, hpurp]
  · intro p _
    exact ⟨fun j hj => propFields_mem_enum p j hj,
      fun j hj => propFields_mem_description p j hj⟩
  · unfold ToolWrapper.requiredFields
    rw [hnames, hreq]
  · intro n
    unfold ToolWrapper.requiredFields
    rw [hnames, hreq]
    constructor
    · intro hn
      have := (List.mem_filter.mp hn).2
      exact (contains_iff_mem _ _).mp this
    · intro hn
      refine List.mem_filter.mpr ⟨?_, (contains_iff_mem _ _).mpr hn⟩
      have hr := (checkRequired_ok_iff _ _).mp hc4
      have := hr n hn
      rw [attachDescriptions_names, hnames0] at this
      exact (contains_iff_mem _ _).mp this

/-- Counterexample for C2 as stated: with `required = ["a", "a"]` over the
single parameter `a`, construction succeeds but `to_dict`'s required list
is `["a"]`, not the construction list `["a", "a"]` — the output's required
list is the parameter-map-ordered deduplicated restriction, not the input
list itself. -/
theorem to_dict_required_cex :
    ∃ tw, ToolWrapper.init "p" (some ["a", "a"]) (some (.func exAdd)) true
        [("a", .type .pInt), ("a_description", .string "the a")] =
        .ok tw ∧
      tw.required = ["a", "a"] ∧
      tw.requiredFields = ["a"] ∧
      tw.requiredFields ≠ tw.required ∧
      tw.to_dict = .dict [("type", .s "function"),
        ("function", .dict
          [("name", .s "addNumbers"),
           ("description", .s "p"),
           ("parameters", .dict
             [("type", .s "object"),
              ("properties", .dict
                [("a", .dict [("type", .s "integer"),
                  ("description", .kwv (.string "the a"))])]),
              ("required", .list [.s "a"])])])] :=
  ⟨ToolWrapper.mk "addNumbers" exAdd true "p"
      [ParamEntry.mk "a" "integer" Option.none (some (.string "the a"))]
      ["a", "a"],
    rfl, rfl, rfl, by decide, rfl⟩

/-- Witness for C2: the example adder's wrapper projects to the expected
schema document with required list `["a", "b"]`. -/
theorem to_dict_spec_witness :
    exAddW.to_dict = .dict [("type", .s "function"),
      ("function", .dict
        [("name", .s "addNumbers"),
         ("description", .s "Add two numbers"),
         ("parameters", .dict
           [("type", .s "object"),
            ("properties", .dict
              [("a", .dict [("type", .s "integer"),
                 ("description", .kwv (.string "the first"))]),
               ("b", .dict [("type", .s "integer"),
                 ("description", .kwv (.string "the second"))])]),
            ("required", .list [.s "a", .s "b"])])])] ∧
    exAddW.requiredFields = ["a", "b"] :=
  ⟨(to_dict_spec "Add two numbers" (some ["a", "b"]) exAdd true
      [("a", .type .pInt), ("a_description", .string "the first"),
       ("b", .type .pInt), ("b_description", .string "the second")]
      exAddW rfl).1,
   (to_dict_spec "Add two numbers" (some ["a", "b"]) exAdd true
      [("a", .type .pInt), ("a_description", .string "the first"),
       ("b", .type .pInt), ("b_description", .string "the second")]
      exAddW rfl).2.2.2.1⟩
